import Mathlib

/-!
Verification of the `su-exec` privilege-dropping utility
(`src/scripts/agent/su-exec.c`), via a shallow embedding.

The C program is embedded as a pure function from the argument vector and a
model of the system collaborators (passwd / group databases, current ids,
success of the identity syscalls) to a trace of attempted syscalls plus an
outcome.  Machine integers: `uid_t`/`gid_t` are unsigned 32-bit, `long` is
signed 64-bit; conversions are explicit (`castId`, `clampLong`).
-/

/-- C `isspace` in the default locale: space, \t, \n, \v, \f, \r
(`strtol` skips these before the optional sign). -/
def isCSpace (c : Char) : Bool := c.toNat = 32 || (9 ≤ c.toNat && c.toNat ≤ 13)

/-- Decimal digit `'0'..'9'` (code points 48–57). -/
def isDigitC (c : Char) : Bool := 48 ≤ c.toNat && c.toNat ≤ 57

/-- The digit-consuming phase of `strtol`: consume a maximal run of decimal
digits, accumulating the value; return the value and the unconsumed rest. -/
def digitsRun : List Char → Nat → Nat × List Char
  | [], acc => (acc, [])
  | c :: cs, acc =>
    if isDigitC c then digitsRun cs (10 * acc + (c.toNat - 48)) else (acc, c :: cs)

/-- Whether the next character exists and is a decimal digit. -/
def headDigit : List Char → Bool
  | [] => false
  | c :: _ => isDigitC c

/-- `strtol` clamps out-of-range values to `LONG_MIN`/`LONG_MAX`. -/
def clampLong (v : Int) : Int := max (-(2 ^ 63)) (min (2 ^ 63 - 1) v)

/-- `strtol(s, &end, 10)`: skips leading whitespace, accepts one optional
`+`/`-` sign (code points 43/45), then a maximal digit run.  Returns the
(clamped) value together with the suffix starting at `end`.  When no digit is
consumed, `end` is reset to the start of the string, so the suffix is the
whole input (in particular the empty string yields value 0 and an empty
suffix). -/
def strtol10Aux (cs : List Char) : Int × List Char :=
  match cs.dropWhile isCSpace with
  | [] => (0, cs)
  | c :: r =>
    if c.toNat = 45 then
      (if headDigit r then (clampLong (-((digitsRun r 0).1 : Int)), (digitsRun r 0).2)
       else (0, cs))
    else if c.toNat = 43 then
      (if headDigit r then (clampLong ((digitsRun r 0).1 : Int), (digitsRun r 0).2)
       else (0, cs))
    else
      (if isDigitC c then (clampLong ((digitsRun (c :: r) 0).1 : Int), (digitsRun (c :: r) 0).2)
       else (0, cs))

/-- The value `strtol(s, &end, 10)` produces. -/
def strtolVal (s : String) : Int := (strtol10Aux s.data).1

/-- The test `*end == '\0'` after `strtol(s, &end, 10)`: the entire string
was consumed by integer parsing. -/
def strtolConsumedAll (s : String) : Bool := (strtol10Aux s.data).2.isEmpty

/-- Conversion of a C `long` value to `uid_t`/`gid_t` (unsigned 32-bit). -/
def castId (v : Int) : Nat := (v % (2 ^ 32)).toNat

/-- The numeric id a token denotes when the code takes the numeric path
(`strtol` fully consumed the token). -/
def numericId (s : String) : Nat := castId (strtolVal s)

/-- `strchr(user, ':')` splitting of the user-spec (lines 62–65): the part
before the first colon, and — when a colon exists — everything after it. -/
def splitFirst : List Char → List Char × Option (List Char)
  | [] => ([], none)
  | c :: cs =>
    if c = ':' then ([], some cs)
    else (c :: (splitFirst cs).1, (splitFirst cs).2)

/-- The user part of a user-spec string. -/
def userPart (s : String) : String := String.mk (splitFirst s.data).1

/-- The group part of a user-spec string (`none` when it has no colon). -/
def groupPart (s : String) : Option String := (splitFirst s.data).2.map String.mk

/-- `str_occurrences` (lines 23–32): number of occurrences of a character. -/
def str_occurrences : List Char → Char → Nat
  | [], _ => 0
  | c :: cs, t => (if c = t then 1 else 0) + str_occurrences cs t

/-- Split a character list at every occurrence of the delimiter, keeping
empty fields (so the number of parts is the number of delimiters plus one). -/
def splitOn (d : Char) : List Char → List (List Char)
  | [] => [[]]
  | c :: cs =>
    if c = d then [] :: splitOn d cs
    else
      match splitOn d cs with
      | [] => [[c]]
      | t :: ts => (c :: t) :: ts

/-- The comma-separated fields of a group list, empty fields included. -/
def commaTokens (s : String) : List String := (splitOn ',' s.data).map String.mk

/-- The token sequence produced by repeated `strtok(·, ",")` (lines
115–125): like `commaTokens`, but empty fields are skipped. -/
def strtokTokens (s : String) : List String :=
  ((splitOn ',' s.data).filter (fun l => !l.isEmpty)).map String.mk

/-- The decimal value of a digit string (most significant digit first). -/
def decVal (cs : List Char) : Nat := cs.foldl (fun a c => 10 * a + (c.toNat - 48)) 0

/-- The last character of a list, if any. -/
def lastChar : List Char → Option Char
  | [] => none
  | [c] => some c
  | _ :: c :: cs => lastChar (c :: cs)

/-- A passwd record (the fields the program reads). -/
structure Passwd where
  pw_name : String
  pw_uid : Nat
  pw_gid : Nat
  pw_dir : String
deriving DecidableEq, Repr

/-- A group record (the fields the program reads). -/
structure GroupRec where
  gr_name : String
  gr_gid : Nat
deriving DecidableEq, Repr

/-- The system collaborators: current real ids, the identity databases, the
groups-for-user membership map, and whether each identity syscall succeeds. -/
structure Sys where
  cur_uid : Nat
  cur_gid : Nat
  pwnam : String → Option Passwd
  pwuid : Nat → Option Passwd
  grnam : String → Option GroupRec
  grouplist : String → Nat → List Nat
  setgroups_ok : List Nat → Bool
  setgid_ok : Nat → Bool
  setuid_ok : Nat → Bool
  exec_ok : List String → Bool

/-- An attempted syscall, in program order.  `grouplistQuery` marks the
passwd-derived supplementary-group computation (the `getgrouplist` loop). -/
inductive Event where
  | setenvHOME (v : String)
  | grouplistQuery (name : String) (gid : Nat)
  | setgroups (cnt : Nat) (gs : List Nat)
  | setgid (g : Nat)
  | setuid (u : Nat)
  | execvp (cmd : String) (args : List String)
deriving DecidableEq, Repr

/-- How the run ends: usage text on stdout with an exit code, a fatal `err`
exit (code 1, message to stderr), a successful process replacement, or
undefined behaviour (`strtok` returning NULL fed to `get_gid`). -/
inductive Outcome where
  | usage (code : Nat) (text : String)
  | fatal (msg : String)
  | execed
  | crash
deriving DecidableEq, Repr

/-- The usage text printed by `usage` (line 19). -/
def usageText (argv0 : String) : String :=
  "Usage: " ++ argv0 ++ " user-spec command [args]\n"

/-- `get_gid` (lines 34–48): numeric if `strtol` consumes the whole token,
otherwise a `getgrnam` lookup that is fatal when the name is unknown. -/
def get_gid (sys : Sys) (ref : String) : Except String Nat :=
  if strtolConsumedAll ref then Except.ok (numericId ref)
  else
    match sys.grnam ref with
    | none => Except.error ("getgrnam(" ++ ref ++ ")")
    | some gr => Except.ok gr.gr_gid

/-- The `getgrnam` branch of `get_gid`, as a standalone function. -/
def gidByName (sys : Sys) (ref : String) : Except String Nat :=
  match sys.grnam ref with
  | none => Except.error ("getgrnam(" ++ ref ++ ")")
  | some gr => Except.ok gr.gr_gid

/-- Resolve a list of group tokens in order, stopping at the first failure
(the order in which the `while` loop at lines 119–125 calls `get_gid`). -/
def mapGetGid (sys : Sys) : List String → Except String (List Nat)
  | [] => Except.ok []
  | t :: ts =>
    match get_gid sys t with
    | Except.error e => Except.error e
    | Except.ok g =>
      match mapGetGid sys ts with
      | Except.error e => Except.error e
      | Except.ok gs => Except.ok (g :: gs)

/-- User resolution (lines 69–81): empty user keeps the caller's uid; a
fully-numeric user sets the uid directly; otherwise `getpwnam`, fatal when
the name is unknown.  Returns the uid so far and the record found by name. -/
def resolveUser (sys : Sys) (user : String) : Except String (Nat × Option Passwd) :=
  if user = "" then Except.ok (sys.cur_uid, none)
  else if strtolConsumedAll user then Except.ok (numericId user, none)
  else
    match sys.pwnam user with
    | none => Except.error ("getpwnam(" ++ user ++ ")")
    | some pw => Except.ok (sys.cur_uid, some pw)

/-- Lines 82–85: when no record came from `getpwnam`, try `getpwuid` on the
uid resolved so far. -/
def pwAfterLookup (sys : Sys) (uid1 : Nat) (pwn : Option Passwd) : Option Passwd :=
  match pwn with
  | some p => some p
  | none => sys.pwuid uid1

/-- Lines 86–90: the uid actually used (record's uid when one was found). -/
def uidOf (pw : Option Passwd) (uid1 : Nat) : Nat :=
  match pw with
  | some p => p.pw_uid
  | none => uid1

/-- Lines 86–90: the gid before any explicit group handling (record's gid
when a record was found, else the caller's gid). -/
def gidOf (sys : Sys) (pw : Option Passwd) : Nat :=
  match pw with
  | some p => p.pw_gid
  | none => sys.cur_gid

/-- Line 92: the value `HOME` is set to. -/
def homeOf (pw : Option Passwd) : String :=
  match pw with
  | some p => p.pw_dir
  | none => "/"

/-- Explicit-group handling (lines 94–129).  Returns the events emitted, and
either the failing outcome or the gid to use for `setgid` together with the
flag telling whether `pw` is still non-NULL afterwards (the code sets
`pw = NULL` whenever a non-empty group part was supplied). -/
def groupPhase (sys : Sys) (group : Option String) (gid : Nat) :
    List Event × Except Outcome (Nat × Bool) :=
  match group with
  | none => ([], Except.ok (gid, true))
  | some g =>
    if g = "" then ([], Except.ok (gid, true))
    else if str_occurrences g.data ',' + 1 = 1 then
      match get_gid sys g with
      | Except.error e => ([], Except.error (Outcome.fatal e))
      | Except.ok ng =>
        if sys.setgroups_ok [ng] then ([Event.setgroups 1 [ng]], Except.ok (ng, false))
        else
          ([Event.setgroups 1 [ng]],
           Except.error (Outcome.fatal ("setgroups(" ++ toString ng ++ ")")))
    else
      match strtokTokens g with
      | [] => ([], Except.error Outcome.crash)
      | t :: ts =>
        match get_gid sys t with
        | Except.error e => ([], Except.error (Outcome.fatal e))
        | Except.ok g0 =>
          match mapGetGid sys ts with
          | Except.error e => ([], Except.error (Outcome.fatal e))
          | Except.ok gs =>
            if sys.setgroups_ok (g0 :: gs) then
              ([Event.setgroups (str_occurrences g.data ',' + 1) (g0 :: gs)],
               Except.ok (g0, false))
            else
              ([Event.setgroups (str_occurrences g.data ',' + 1) (g0 :: gs)],
               Except.error (Outcome.fatal "setgroups()"))

/-- One faithful `getgrouplist(name, gid, buf, &ngroups)` call for a user
whose full membership list is `L`: with a buffer of at least `L.length`
slots it succeeds, storing the count and the list; otherwise it returns -1
and reports the required count. -/
def getgrouplistCall (L : List Nat) (buf : Nat) : Int × Nat × List Nat :=
  if L.length ≤ buf then ((L.length : Int), L.length, L) else (-1, L.length, [])

/-- The probe-allocate-retry loop at lines 136–150, over an arbitrary
`getgrouplist`-shaped responder `q` (buffer size ↦ (return value, stored
count, stored groups)), with explicit fuel.  On success it returns the
`(ngroups, glist)` pair passed to `setgroups`. -/
def glLoop (q : Nat → Int × Nat × List Nat) : Nat → Nat → Option (Nat × List Nat)
  | 0, _ => none
  | fuel + 1, buf =>
    match q buf with
    | (r, n, out) => if 0 ≤ r then some (n, out) else glLoop q fuel n

/-- A pathological responder: always fails and always asks for one more
slot than the buffer has. -/
def pathoQuery (buf : Nat) : Int × Nat × List Nat := (-1, buf + 1, [])

/-- The passwd-derived supplementary-group computation (lines 131–151): runs
only when `pw` is still non-NULL; queries the membership list and applies it
with `setgroups`.  Under the `getgrouplist` contract the retry loop finishes
within two iterations (`glLoop_faithful`), so fuel 2 is exact. -/
def grouplistPhase (sys : Sys) (pw : Option Passwd) (usePw : Bool) (gid : Nat) :
    List Event × Option Outcome :=
  if usePw then
    match pw with
    | some p =>
      match glLoop (getgrouplistCall (sys.grouplist p.pw_name gid)) 2 0 with
      | some (n, out) =>
        if sys.setgroups_ok out then
          ([Event.grouplistQuery p.pw_name gid, Event.setgroups n out], none)
        else
          ([Event.grouplistQuery p.pw_name gid, Event.setgroups n out],
           some (Outcome.fatal "setgroups"))
      | none => ([Event.grouplistQuery p.pw_name gid], some Outcome.crash)
    | none => ([], none)
  else ([], none)

/-- Lines 153–160: `setgid`, then `setuid`, then `execvp`, each fatal on
failure; every attempted call is recorded. -/
def finalPhase (sys : Sys) (gid uid : Nat) (cmd : String) (rest : List String) :
    List Event × Outcome :=
  if sys.setgid_ok gid then
    if sys.setuid_ok uid then
      if sys.exec_ok (cmd :: rest) then
        ([Event.setgid gid, Event.setuid uid, Event.execvp cmd rest], Outcome.execed)
      else
        ([Event.setgid gid, Event.setuid uid, Event.execvp cmd rest], Outcome.fatal cmd)
    else
      ([Event.setgid gid, Event.setuid uid],
       Outcome.fatal ("setuid(" ++ toString uid ++ ")"))
  else
    ([Event.setgid gid], Outcome.fatal ("setgid(" ++ toString gid ++ ")"))

/-- The program after successful user resolution (lines 86–160): `setenv`
of HOME, explicit-group handling, passwd-derived group handling, then the
final `setgid`/`setuid`/`execvp` sequence. -/
def afterResolve (sys : Sys) (pw : Option Passwd) (uid : Nat) (group : Option String)
    (cmd : String) (rest : List String) : List Event × Outcome :=
  match groupPhase sys group (gidOf sys pw) with
  | (evG, Except.error out) => (Event.setenvHOME (homeOf pw) :: evG, out)
  | (evG, Except.ok (gid2, usePw)) =>
    match grouplistPhase sys pw usePw gid2 with
    | (evL, some out) => (Event.setenvHOME (homeOf pw) :: (evG ++ evL), out)
    | (evL, none) =>
      match finalPhase sys gid2 uid cmd rest with
      | (evF, out) => (Event.setenvHOME (homeOf pw) :: (evG ++ (evL ++ evF)), out)

/-- `main` (lines 50–163): with fewer than two positional arguments, print
usage and exit 0; otherwise split the user-spec, resolve the user, and run
the phases above.  `args` is `argv[1:]`. -/
def mainRun (sys : Sys) (argv0 : String) : List String → List Event × Outcome
  | userspec :: cmd :: rest =>
    match resolveUser sys (userPart userspec) with
    | Except.error e => ([], Outcome.fatal e)
    | Except.ok (uid1, pwn) =>
      afterResolve sys (pwAfterLookup sys uid1 pwn)
        (uidOf (pwAfterLookup sys uid1 pwn) uid1) (groupPart userspec) cmd rest
  | _ => ([], Outcome.usage 0 (usageText argv0))

/-- Whether a trace contains an `execvp` attempt (process replacement). -/
def reachesExec (tr : List Event) : Bool :=
  tr.any fun e =>
    match e with
    | Event.execvp _ _ => true
    | _ => false

/-- Whether an event changes the process identity (groups, gid or uid). -/
def idChange : Event → Bool
  | Event.setgroups _ _ => true
  | Event.setgid _ => true
  | Event.setuid _ => true
  | _ => false

/-- Whether an event is the `setenv("HOME", ·, 1)` call. -/
def isSetenvHOME : Event → Bool
  | Event.setenvHOME _ => true
  | _ => false

/-- The passwd record the program ends up holding at line 92 (found by name,
or by reverse uid lookup), if resolution succeeds. -/
def resolvedPwOpt (sys : Sys) (userspec : String) : Option Passwd :=
  match resolveUser sys (userPart userspec) with
  | Except.error _ => none
  | Except.ok (uid1, pwn) => pwAfterLookup sys uid1 pwn

/-- A concrete system used by the witnesses: root caller, one user, one
named group, all syscalls succeeding. -/
def sysA : Sys where
  cur_uid := 0
  cur_gid := 0
  pwnam := fun s => if s = "alice" then some ⟨"alice", 1000, 1000, "/home/alice"⟩ else none
  pwuid := fun u => if u = 1000 then some ⟨"alice", 1000, 1000, "/home/alice"⟩ else none
  grnam := fun s => if s = "staff" then some ⟨"staff", 50⟩ else none
  grouplist := fun _ g => [g, 27]
  setgroups_ok := fun _ => true
  setgid_ok := fun _ => true
  setuid_ok := fun _ => true
  exec_ok := fun _ => true

/-- A concrete system whose passwd record for the caller's uid carries a gid
different from the caller's real gid. -/
def sysB : Sys where
  cur_uid := 1000
  cur_gid := 1000
  pwnam := fun _ => none
  pwuid := fun u => if u = 1000 then some ⟨"bob", 1000, 2000, "/home/bob"⟩ else none
  grnam := fun _ => none
  grouplist := fun _ g => [g]
  setgroups_ok := fun _ => true
  setgid_ok := fun _ => true
  setuid_ok := fun _ => true
  exec_ok := fun _ => true

/-- A concrete system with an empty passwd database. -/
def sysC : Sys where
  cur_uid := 7
  cur_gid := 8
  pwnam := fun _ => none
  pwuid := fun _ => none
  grnam := fun _ => none
  grouplist := fun _ g => [g]
  setgroups_ok := fun _ => true
  setgid_ok := fun _ => true
  setuid_ok := fun _ => true
  exec_ok := fun _ => true

/-- Sanity run: name lookup, derived supplementary groups. -/
theorem mainRun_sample_alice : mainRun sysA "su-exec" ["alice", "/bin/sh"] =
    ([Event.setenvHOME "/home/alice", Event.grouplistQuery "alice" 1000,
      Event.setgroups 2 [1000, 27], Event.setgid 1000, Event.setuid 1000,
      Event.execvp "/bin/sh" []], Outcome.execed) := by decide

/-- Sanity run: explicit group list overrides the passwd-derived path. -/
theorem mainRun_sample_groups : mainRun sysA "su-exec" ["alice:100,staff", "/bin/sh"] =
    ([Event.setenvHOME "/home/alice", Event.setgroups 2 [100, 50],
      Event.setgid 100, Event.setuid 1000, Event.execvp "/bin/sh" []],
     Outcome.execed) := by decide

/-- Sanity run: numeric uid with no passwd record. -/
theorem mainRun_sample_numeric : mainRun sysC "su-exec" ["4242", "/bin/true"] =
    ([Event.setenvHOME "/", Event.setgid 8, Event.setuid 4242,
      Event.execvp "/bin/true" []], Outcome.execed) := by decide

/-! ### Generic helper lemmas -/

theorem splitFirst_spec (cs : List Char) :
    splitFirst cs =
      (cs.takeWhile (fun c => !(c == ':')), (cs.dropWhile (fun c => !(c == ':'))).tail?) := by
  induction cs with
  | nil => rfl
  | cons c cs ih =>
    by_cases h : c = ':'
    · subst h
      simp [splitFirst, List.takeWhile_cons, List.dropWhile_cons]
    · simp [splitFirst, h, List.takeWhile_cons, List.dropWhile_cons, ih]

theorem splitOn_ne_nil (d : Char) (cs : List Char) : splitOn d cs ≠ [] := by
  cases cs with
  | nil => simp [splitOn]
  | cons c cs =>
    unfold splitOn
    split
    · simp
    · split <;> simp

theorem splitOn_length (d : Char) (cs : List Char) :
    (splitOn d cs).length = str_occurrences cs d + 1 := by
  induction cs with
  | nil => rfl
  | cons c cs ih =>
    unfold splitOn str_occurrences
    by_cases h : c = d
    · simp [h, List.length_cons, ih, str_occurrences]
      omega
    · simp only [h, if_neg, if_false]
      split
      · exact absurd (by assumption) (splitOn_ne_nil d cs)
      · rename_i t ts heq
        have : (splitOn d cs).length = ts.length + 1 := by rw [heq]; rfl
        simp [h] at ih ⊢
        omega

theorem splitOn_no_delim (d : Char) (cs : List Char) (h : str_occurrences cs d = 0) :
    splitOn d cs = [cs] := by
  induction cs with
  | nil => rfl
  | cons c cs ih =>
    unfold str_occurrences at h
    by_cases hc : c = d
    · simp [hc] at h
    · simp [hc] at h
      unfold splitOn
      simp only [hc, if_neg, if_false, ih h]

theorem glLoop_faithful (L : List Nat) (b : Nat) :
    glLoop (getgrouplistCall L) 2 b = some (L.length, L) := by
  by_cases h : L.length ≤ b <;>
    simp [glLoop, getgrouplistCall, h, Int.natCast_nonneg]

theorem glLoop_patho (fuel b : Nat) : glLoop pathoQuery fuel b = none := by
  induction fuel generalizing b with
  | zero => rfl
  | succ n ih => simp [glLoop, pathoQuery, ih]

/-! ### Claim C5: user-spec splitting happens at the first colon only -/

/-- C5: the split of the user-spec happens at the first colon only — the
user part is the longest colon-free prefix, the group part is everything
after the first colon (absent when there is no colon); in particular
`"alice:staff"` → (`"alice"`, `"staff"`), `"alice"` → group absent,
`":staff"` → empty user, and `"a:b:c"` keeps `"b:c"` whole. -/
theorem claim_C5 :
    (∀ s : String,
        splitFirst s.data =
          (s.data.takeWhile (fun c => !(c == ':')),
           (s.data.dropWhile (fun c => !(c == ':'))).tail?))
    ∧ userPart "alice:staff" = "alice" ∧ groupPart "alice:staff" = some "staff"
    ∧ userPart "alice" = "alice" ∧ groupPart "alice" = none
    ∧ userPart ":staff" = "" ∧ groupPart ":staff" = some "staff"
    ∧ userPart "a:b:c" = "a" ∧ groupPart "a:b:c" = some "b:c" :=
  ⟨fun s => splitFirst_spec s.data, by decide, by decide, by decide, by decide,
   by decide, by decide, by decide, by decide⟩

/-! ### Claim C7: the getgrouplist probe-allocate-retry loop -/

/-- C7 (amended): under the `getgrouplist` contract — a failing call reports
the required slot count — the probe-allocate-retry loop terminates within two
iterations, and the `(ngroups, glist)` pair it hands to `setgroups` is the
user's full membership list, independent of the initial buffer-size guess. -/
theorem claim_C7 :
    ∀ (L : List Nat) (b : Nat), glLoop (getgrouplistCall L) 2 b = some (L.length, L) :=
  glLoop_faithful

/-- C7 counterexample: the loop has no retry cap, so against a pathological
responder that always fails and always asks for one more slot it never
terminates, for any amount of fuel. -/
theorem claim_C7_counterexample :
    ¬ ∃ fuel : Nat, (glLoop pathoQuery fuel 0).isSome = true := by
  rintro ⟨fuel, h⟩
  rw [glLoop_patho] at h
  simp at h

/-! ### Claim C9: usage on fewer than two positional arguments -/

/-- C9: with zero or one positional argument — whatever that argument is —
the program emits no syscall event (no resolution, no identity transition,
no replacement), prints the non-empty usage text, and exits with code 0. -/
theorem claim_C9 :
    ∀ (sys : Sys) (argv0 a : String),
      mainRun sys argv0 [] = ([], Outcome.usage 0 (usageText argv0)) ∧
      mainRun sys argv0 [a] = ([], Outcome.usage 0 (usageText argv0)) ∧
      usageText argv0 ≠ "" := by
  intro sys argv0 a
  refine ⟨rfl, rfl, fun h => ?_⟩
  have h2 := congrArg String.data h
  simp only [usageText, String.data_append] at h2
  simp at h2

/-! ### Phase characterization lemmas -/

theorem string_data_ne_nil (g : String) (hg : g ≠ "") : g.data ≠ [] := by
  intro hh
  apply hg
  cases g with
  | mk l =>
    cases hh
    rfl

theorem bool_eq_false_of_ne_true {b : Bool} (h : ¬ b = true) : b = false := by
  cases b
  · rfl
  · exact absurd rfl h

theorem strtokTokens_no_comma (g : String) (hg : g ≠ "")
    (h0 : str_occurrences g.data ',' = 0) : strtokTokens g = [g] := by
  have hie : g.data.isEmpty = false := by
    cases hdl : g.data with
    | nil => exact absurd hdl (string_data_ne_nil g hg)
    | cons c cs => rfl
  unfold strtokTokens
  rw [splitOn_no_delim ',' g.data h0]
  simp [List.filter, hie]

theorem grouplistPhase_false (sys : Sys) (pw : Option Passwd) (gid : Nat) :
    grouplistPhase sys pw false gid = ([], none) := rfl

theorem grouplistPhase_shape (sys : Sys) (pw : Option Passwd) (b : Bool) (gid : Nat) :
    grouplistPhase sys pw b gid = ([], none)
    ∨ (∃ nm gq n l,
        grouplistPhase sys pw b gid =
          ([Event.grouplistQuery nm gq, Event.setgroups n l], none))
    ∨ (∃ nm gq n l,
        grouplistPhase sys pw b gid =
          ([Event.grouplistQuery nm gq, Event.setgroups n l],
           some (Outcome.fatal "setgroups"))) := by
  cases b with
  | false => exact Or.inl rfl
  | true =>
    cases pw with
    | none => exact Or.inl rfl
    | some p =>
      by_cases h : sys.setgroups_ok (sys.grouplist p.pw_name gid)
      · refine Or.inr (Or.inl ⟨p.pw_name, gid, (sys.grouplist p.pw_name gid).length,
          sys.grouplist p.pw_name gid, ?_⟩)
        simp [grouplistPhase, glLoop_faithful, h]
      · refine Or.inr (Or.inr ⟨p.pw_name, gid, (sys.grouplist p.pw_name gid).length,
          sys.grouplist p.pw_name gid, ?_⟩)
        simp [grouplistPhase, glLoop_faithful, h]

/-- Full `getgrouplist`-path characterization: the passwd-derived
supplementary set is exactly the membership list the system reports. -/
theorem grouplistPhase_true_some (sys : Sys) (p : Passwd) (gid : Nat) :
    grouplistPhase sys (some p) true gid =
      (if sys.setgroups_ok (sys.grouplist p.pw_name gid) then
        ([Event.grouplistQuery p.pw_name gid,
          Event.setgroups (sys.grouplist p.pw_name gid).length (sys.grouplist p.pw_name gid)],
         none)
      else
        ([Event.grouplistQuery p.pw_name gid,
          Event.setgroups (sys.grouplist p.pw_name gid).length (sys.grouplist p.pw_name gid)],
         some (Outcome.fatal "setgroups"))) := by
  by_cases h : sys.setgroups_ok (sys.grouplist p.pw_name gid) <;>
    simp [grouplistPhase, glLoop_faithful, h]

theorem groupPhase_none_or_empty (sys : Sys) (gid : Nat) (group : Option String)
    (h : group = none ∨ group = some "") :
    groupPhase sys group gid = ([], Except.ok (gid, true)) := by
  rcases h with h | h <;> subst h <;> simp [groupPhase]

/-- Full characterization of the explicit-group phase: either no group part
was given (and nothing happens), or the group part is a non-empty string and
the phase fails on a token / crashes on an all-comma group / performs exactly
one `setgroups` with the resolved token gids, succeeding or failing with it. -/
theorem groupPhase_cases (sys : Sys) (group : Option String) (gid : Nat) :
    (groupPhase sys group gid = ([], Except.ok (gid, true)) ∧ (group = none ∨ group = some ""))
    ∨ (∃ g, group = some g ∧ g ≠ "" ∧
        ((∃ e, groupPhase sys group gid = ([], Except.error (Outcome.fatal e)))
         ∨ groupPhase sys group gid = ([], Except.error Outcome.crash)
         ∨ (∃ g0 gs, mapGetGid sys (strtokTokens g) = Except.ok (g0 :: gs) ∧
             ((sys.setgroups_ok (g0 :: gs) = true ∧
                 groupPhase sys group gid =
                   ([Event.setgroups (str_occurrences g.data ',' + 1) (g0 :: gs)],
                    Except.ok (g0, false)))
              ∨ (∃ msg, sys.setgroups_ok (g0 :: gs) = false ∧
                 groupPhase sys group gid =
                   ([Event.setgroups (str_occurrences g.data ',' + 1) (g0 :: gs)],
                    Except.error (Outcome.fatal msg))))))) := by
  rcases group with _ | g
  · exact Or.inl ⟨rfl, Or.inl rfl⟩
  · by_cases hg : g = ""
    · subst hg
      exact Or.inl ⟨by simp [groupPhase], Or.inr rfl⟩
    · refine Or.inr ⟨g, rfl, hg, ?_⟩
      by_cases h1 : str_occurrences g.data ',' + 1 = 1
      · have htk : strtokTokens g = [g] := strtokTokens_no_comma g hg (by omega)
        rcases hgg : get_gid sys g with e | ng
        · exact Or.inl ⟨e, by simp [groupPhase, hg, h1, hgg]⟩
        · refine Or.inr (Or.inr ⟨ng, [], ?_, ?_⟩)
          · rw [htk]
            simp [mapGetGid, hgg]
          · by_cases hok : sys.setgroups_ok [ng]
            · exact Or.inl ⟨hok, by rw [h1]; simp [groupPhase, hg, h1, hgg, hok]⟩
            · exact Or.inr ⟨"setgroups(" ++ toString ng ++ ")",
                bool_eq_false_of_ne_true hok,
                by rw [h1]; simp [groupPhase, hg, h1, hgg, hok]⟩
      · rcases htk : strtokTokens g with _ | ⟨t, ts⟩
        · exact Or.inr (Or.inl (by simp [groupPhase, hg, h1, htk]))
        · rcases hgg : get_gid sys t with e | g0
          · exact Or.inl ⟨e, by simp [groupPhase, hg, h1, htk, hgg]⟩
          · rcases hmg : mapGetGid sys ts with e | gs
            · exact Or.inl ⟨e, by simp [groupPhase, hg, h1, htk, hgg, hmg]⟩
            · refine Or.inr (Or.inr ⟨g0, gs, ?_, ?_⟩)
              · simp [mapGetGid, hgg, hmg]
              · by_cases hok : sys.setgroups_ok (g0 :: gs)
                · exact Or.inl ⟨hok, by simp [groupPhase, hg, h1, htk, hgg, hmg, hok]⟩
                · exact Or.inr ⟨"setgroups()", bool_eq_false_of_ne_true hok,
                    by simp [groupPhase, hg, h1, htk, hgg, hmg, hok]⟩

theorem finalPhase_shape (sys : Sys) (gid uid : Nat) (cmd : String) (rest : List String) :
    finalPhase sys gid uid cmd rest =
        ([Event.setgid gid], Outcome.fatal ("setgid(" ++ toString gid ++ ")"))
    ∨ finalPhase sys gid uid cmd rest =
        ([Event.setgid gid, Event.setuid uid],
         Outcome.fatal ("setuid(" ++ toString uid ++ ")"))
    ∨ finalPhase sys gid uid cmd rest =
        ([Event.setgid gid, Event.setuid uid, Event.execvp cmd rest], Outcome.fatal cmd)
    ∨ finalPhase sys gid uid cmd rest =
        ([Event.setgid gid, Event.setuid uid, Event.execvp cmd rest], Outcome.execed) := by
  by_cases h1 : sys.setgid_ok gid
  · by_cases h2 : sys.setuid_ok uid
    · by_cases h3 : sys.exec_ok (cmd :: rest)
      · exact Or.inr (Or.inr (Or.inr (by simp [finalPhase, h1, h2, h3])))
      · exact Or.inr (Or.inr (Or.inl (by simp [finalPhase, h1, h2, h3])))
    · exact Or.inr (Or.inl (by simp [finalPhase, h1, h2]))
  · exact Or.inl (by simp [finalPhase, h1])

theorem afterResolve_cases (sys : Sys) (pw : Option Passwd) (uid : Nat)
    (group : Option String) (cmd : String) (rest : List String) :
    (∃ evG out,
        afterResolve sys pw uid group cmd rest = (Event.setenvHOME (homeOf pw) :: evG, out)
        ∧ groupPhase sys group (gidOf sys pw) = (evG, Except.error out))
    ∨ (∃ evG gid2 b evL outL,
        groupPhase sys group (gidOf sys pw) = (evG, Except.ok (gid2, b))
        ∧ grouplistPhase sys pw b gid2 = (evL, some outL)
        ∧ afterResolve sys pw uid group cmd rest =
            (Event.setenvHOME (homeOf pw) :: (evG ++ evL), outL))
    ∨ (∃ evG gid2 b evL evF out,
        groupPhase sys group (gidOf sys pw) = (evG, Except.ok (gid2, b))
        ∧ grouplistPhase sys pw b gid2 = (evL, none)
        ∧ finalPhase sys gid2 uid cmd rest = (evF, out)
        ∧ afterResolve sys pw uid group cmd rest =
            (Event.setenvHOME (homeOf pw) :: (evG ++ (evL ++ evF)), out)) := by
  rcases hG : groupPhase sys group (gidOf sys pw) with ⟨evG, resG⟩
  cases resG with
  | error out =>
    refine Or.inl ⟨evG, out, ?_, rfl⟩
    unfold afterResolve
    rw [hG]
  | ok p =>
    rcases p with ⟨gid2, b⟩
    rcases hL : grouplistPhase sys pw b gid2 with ⟨evL, resL⟩
    cases resL with
    | some outL =>
      refine Or.inr (Or.inl ⟨evG, gid2, b, evL, outL, rfl, hL, ?_⟩)
      unfold afterResolve
      simp only [hG, hL]
    | none =>
      rcases hF : finalPhase sys gid2 uid cmd rest with ⟨evF, out⟩
      refine Or.inr (Or.inr ⟨evG, gid2, b, evL, evF, out, rfl, hL, hF, ?_⟩)
      unfold afterResolve
      simp only [hG, hL, hF]

theorem groupPhase_events_shape (sys : Sys) (group : Option String) (gid : Nat)
    (evG : List Event) (res : Except Outcome (Nat × Bool))
    (hG : groupPhase sys group gid = (evG, res)) :
    evG = [] ∨ ∃ n l, evG = [Event.setgroups n l] := by
  rcases groupPhase_cases sys group gid with ⟨h1, _⟩ |
    ⟨g, _, _, ⟨e, h1⟩ | h1 | ⟨g0, gs, _, ⟨_, h1⟩ | ⟨msg, _, h1⟩⟩⟩ <;>
    rw [h1] at hG <;> injection hG with hev hres <;>
    first
      | exact Or.inl hev.symm
      | exact Or.inr ⟨_, _, hev.symm⟩

theorem grouplistPhase_events_shape (sys : Sys) (pw : Option Passwd) (b : Bool)
    (gid : Nat) (evL : List Event) (res : Option Outcome)
    (hL : grouplistPhase sys pw b gid = (evL, res)) :
    evL = [] ∨ ∃ nm gq n l, evL = [Event.grouplistQuery nm gq, Event.setgroups n l] := by
  rcases grouplistPhase_shape sys pw b gid with h1 | ⟨nm, gq, n, l, h1⟩ | ⟨nm, gq, n, l, h1⟩ <;>
    rw [h1] at hL <;> injection hL with hev hres <;>
    first
      | exact Or.inl hev.symm
      | exact Or.inr ⟨_, _, _, _, hev.symm⟩

theorem finalPhase_events_shape (sys : Sys) (gid uid : Nat) (cmd : String)
    (rest : List String) (evF : List Event) (out : Outcome)
    (hF : finalPhase sys gid uid cmd rest = (evF, out)) :
    evF = [Event.setgid gid] ∨ evF = [Event.setgid gid, Event.setuid uid]
    ∨ evF = [Event.setgid gid, Event.setuid uid, Event.execvp cmd rest] := by
  rcases finalPhase_shape sys gid uid cmd rest with h1 | h1 | h1 | h1 <;>
    rw [h1] at hF <;> injection hF with hev hres <;>
    first
      | exact Or.inl hev.symm
      | exact Or.inr (Or.inl hev.symm)
      | exact Or.inr (Or.inr hev.symm)

theorem groupPhase_ok_inv (sys : Sys) (group : Option String) (gid : Nat)
    (evG : List Event) (gid2 : Nat) (b : Bool)
    (hG : groupPhase sys group gid = (evG, Except.ok (gid2, b))) :
    (b = true ∧ evG = [] ∧ gid2 = gid) ∨ (b = false ∧ ∃ n l, evG = [Event.setgroups n l]) := by
  rcases groupPhase_cases sys group gid with ⟨h1, _⟩ |
    ⟨g, _, _, ⟨e, h1⟩ | h1 | ⟨g0, gs, _, ⟨_, h1⟩ | ⟨msg, _, h1⟩⟩⟩ <;>
    rw [h1] at hG <;> injection hG with hev hres
  · injection hres with hp
    injection hp with h4 h5
    exact Or.inl ⟨h5.symm, hev.symm, h4.symm⟩
  · injection hres
  · injection hres
  · injection hres with hp
    injection hp with h4 h5
    exact Or.inr ⟨h5.symm, _, _, hev.symm⟩
  · injection hres

/-! ### Claim C1: fixed order groups → gid → uid before exec -/

/-- C1: on every path that reaches the `execvp` attempt, the trace is the
`HOME` assignment, then at most one `setgroups` (possibly after the
`getgrouplist` query), then `setgid`, then `setuid`, and `execvp` last: no
`setgid` precedes the applicable `setgroups`, `setuid` is the final identity
change, and the order is never uid-then-gid. -/
theorem claim_C1 :
    ∀ (sys : Sys) (argv0 : String) (args : List String),
      reachesExec (mainRun sys argv0 args).1 = true →
      ∃ h0 pre g u c r,
        (mainRun sys argv0 args).1 =
          Event.setenvHOME h0 :: (pre ++ [Event.setgid g, Event.setuid u, Event.execvp c r])
        ∧ (pre = [] ∨ (∃ n l, pre = [Event.setgroups n l])
           ∨ (∃ nm gq n l, pre = [Event.grouplistQuery nm gq, Event.setgroups n l])) := by
  intro sys argv0 args h
  rcases args with _ | ⟨us, args⟩
  · simp [mainRun, reachesExec] at h
  rcases args with _ | ⟨cmd, rest⟩
  · simp [mainRun, reachesExec] at h
  rcases hR : resolveUser sys (userPart us) with e | ⟨uid1, pwn⟩
  · have hM : mainRun sys argv0 (us :: cmd :: rest) = ([], Outcome.fatal e) := by
      simp only [mainRun, hR]
    rw [hM] at h
    simp [reachesExec] at h
  · have hM : mainRun sys argv0 (us :: cmd :: rest) =
        afterResolve sys (pwAfterLookup sys uid1 pwn)
          (uidOf (pwAfterLookup sys uid1 pwn) uid1) (groupPart us) cmd rest := by
      simp only [mainRun, hR]
    rw [hM] at h ⊢
    rcases afterResolve_cases sys (pwAfterLookup sys uid1 pwn)
        (uidOf (pwAfterLookup sys uid1 pwn) uid1) (groupPart us) cmd rest with
      ⟨evG, out, hEq, hG⟩ | ⟨evG, gid2, b, evL, outL, hG, hL, hEq⟩ |
      ⟨evG, gid2, b, evL, evF, out, hG, hL, hF, hEq⟩
    · rw [hEq] at h
      rcases groupPhase_events_shape sys _ _ _ _ hG with hsh | ⟨n, l, hsh⟩ <;>
        subst hsh <;> simp [reachesExec] at h
    · rw [hEq] at h
      rcases groupPhase_events_shape sys _ _ _ _ hG with hsh | ⟨n, l, hsh⟩ <;>
        rcases grouplistPhase_events_shape sys _ _ _ _ _ hL with hsh2 | ⟨nm, gq, n2, l2, hsh2⟩ <;>
        subst hsh <;> subst hsh2 <;> simp [reachesExec] at h
    · rw [hEq] at h ⊢
      have hex : evF = [Event.setgid gid2,
          Event.setuid (uidOf (pwAfterLookup sys uid1 pwn) uid1),
          Event.execvp cmd rest] := by
        rcases finalPhase_events_shape sys _ _ _ _ _ _ hF with h3 | h3 | h3 <;> subst h3 <;>
          rcases groupPhase_events_shape sys _ _ _ _ hG with hsh | ⟨n, l, hsh⟩ <;>
          rcases grouplistPhase_events_shape sys _ _ _ _ _ hL with hsh2 | ⟨nm, gq, n2, l2, hsh2⟩ <;>
          subst hsh <;> subst hsh2 <;> simp_all [reachesExec]
      subst hex
      refine ⟨homeOf (pwAfterLookup sys uid1 pwn), evG ++ evL, gid2,
        uidOf (pwAfterLookup sys uid1 pwn) uid1, cmd, rest, by rw [List.append_assoc], ?_⟩
      rcases groupPhase_events_shape sys _ _ _ _ hG with hsh | ⟨n, l, hsh⟩
      · subst hsh
        rcases grouplistPhase_events_shape sys _ _ _ _ _ hL with hsh2 | ⟨nm, gq, n2, l2, hsh2⟩ <;>
          subst hsh2
        · exact Or.inl rfl
        · exact Or.inr (Or.inr ⟨nm, gq, n2, l2, rfl⟩)
      · subst hsh
        have hb : b = false := by
          rcases groupPhase_ok_inv sys _ _ _ _ _ hG with ⟨_, hev, _⟩ | ⟨hb, _⟩
          · exact absurd hev (by simp)
          · exact hb
        subst hb
        have hnil : evL = [] := by
          have h0 := grouplistPhase_false sys (pwAfterLookup sys uid1 pwn) gid2
          rw [h0] at hL
          injection hL with h1 h2
          exact h1.symm
        subst hnil
        exact Or.inr (Or.inl ⟨n, l, by simp⟩)

/-- C1 witness: the shape theorem applied to a concrete run that reaches
`execvp`. -/
theorem claim_C1_witness :
    ∃ h0 pre g u c r,
      (mainRun sysA "su-exec" ["alice", "/bin/sh"]).1 =
        Event.setenvHOME h0 :: (pre ++ [Event.setgid g, Event.setuid u, Event.execvp c r])
      ∧ (pre = [] ∨ (∃ n l, pre = [Event.setgroups n l])
         ∨ (∃ nm gq n l, pre = [Event.grouplistQuery nm gq, Event.setgroups n l])) :=
  claim_C1 sysA "su-exec" ["alice", "/bin/sh"] (by decide)

/-- Master shape of every run that reaches the `execvp` attempt: user
resolution succeeded, the trace starts with the HOME assignment and ends
with `setgid`/`setuid`/`execvp`, with at most one `setgroups` in between;
when no non-empty group part was given, the gid is the resolved default. -/
theorem mainRun_exec_full (sys : Sys) (argv0 us cmd : String) (rest : List String)
    (h : reachesExec (mainRun sys argv0 (us :: cmd :: rest)).1 = true) :
    ∃ uid1 pwn pre gid2,
      resolveUser sys (userPart us) = Except.ok (uid1, pwn)
      ∧ (mainRun sys argv0 (us :: cmd :: rest)).1 =
          Event.setenvHOME (homeOf (pwAfterLookup sys uid1 pwn)) ::
            (pre ++ [Event.setgid gid2,
                     Event.setuid (uidOf (pwAfterLookup sys uid1 pwn) uid1),
                     Event.execvp cmd rest])
      ∧ (pre = [] ∨ (∃ n l, pre = [Event.setgroups n l])
         ∨ (∃ nm gq n l, pre = [Event.grouplistQuery nm gq, Event.setgroups n l]))
      ∧ ((groupPart us = none ∨ groupPart us = some "") →
          gid2 = gidOf sys (pwAfterLookup sys uid1 pwn)) := by
  rcases hR : resolveUser sys (userPart us) with e | ⟨uid1, pwn⟩
  · have hM : mainRun sys argv0 (us :: cmd :: rest) = ([], Outcome.fatal e) := by
      simp only [mainRun, hR]
    rw [hM] at h
    simp [reachesExec] at h
  · have hM : mainRun sys argv0 (us :: cmd :: rest) =
        afterResolve sys (pwAfterLookup sys uid1 pwn)
          (uidOf (pwAfterLookup sys uid1 pwn) uid1) (groupPart us) cmd rest := by
      simp only [mainRun, hR]
    rw [hM] at h ⊢
    rcases afterResolve_cases sys (pwAfterLookup sys uid1 pwn)
        (uidOf (pwAfterLookup sys uid1 pwn) uid1) (groupPart us) cmd rest with
      ⟨evG, out, hEq, hG⟩ | ⟨evG, gid2, b, evL, outL, hG, hL, hEq⟩ |
      ⟨evG, gid2, b, evL, evF, out, hG, hL, hF, hEq⟩
    · rw [hEq] at h
      rcases groupPhase_events_shape sys _ _ _ _ hG with hsh | ⟨n, l, hsh⟩ <;>
        subst hsh <;> simp [reachesExec] at h
    · rw [hEq] at h
      rcases groupPhase_events_shape sys _ _ _ _ hG with hsh | ⟨n, l, hsh⟩ <;>
        rcases grouplistPhase_events_shape sys _ _ _ _ _ hL with hsh2 | ⟨nm, gq, n2, l2, hsh2⟩ <;>
        subst hsh <;> subst hsh2 <;> simp [reachesExec] at h
    · rw [hEq] at h ⊢
      have hex : evF = [Event.setgid gid2,
          Event.setuid (uidOf (pwAfterLookup sys uid1 pwn) uid1),
          Event.execvp cmd rest] := by
        rcases finalPhase_events_shape sys _ _ _ _ _ _ hF with h3 | h3 | h3 <;> subst h3 <;>
          rcases groupPhase_events_shape sys _ _ _ _ hG with hsh | ⟨n, l, hsh⟩ <;>
          rcases grouplistPhase_events_shape sys _ _ _ _ _ hL with hsh2 | ⟨nm, gq, n2, l2, hsh2⟩ <;>
          subst hsh <;> subst hsh2 <;> simp_all [reachesExec]
      subst hex
      refine ⟨uid1, pwn, evG ++ evL, gid2, rfl, by rw [List.append_assoc], ?_, ?_⟩
      · rcases groupPhase_events_shape sys _ _ _ _ hG with hsh | ⟨n, l, hsh⟩
        · subst hsh
          rcases grouplistPhase_events_shape sys _ _ _ _ _ hL with hsh2 | ⟨nm, gq, n2, l2, hsh2⟩ <;>
            subst hsh2
          · exact Or.inl rfl
          · exact Or.inr (Or.inr ⟨nm, gq, n2, l2, rfl⟩)
        · subst hsh
          have hb : b = false := by
            rcases groupPhase_ok_inv sys _ _ _ _ _ hG with ⟨_, hev, _⟩ | ⟨hb, _⟩
            · exact absurd hev (by simp)
            · exact hb
          subst hb
          have hnil : evL = [] := by
            have h0 := grouplistPhase_false sys (pwAfterLookup sys uid1 pwn) gid2
            rw [h0] at hL
            injection hL with h1 h2
            exact h1.symm
          subst hnil
          exact Or.inr (Or.inl ⟨n, l, by simp⟩)
      · intro hgp
        have h0 := groupPhase_none_or_empty sys
          (gidOf sys (pwAfterLookup sys uid1 pwn)) (groupPart us) hgp
        rw [h0] at hG
        injection hG with hev hres
        injection hres with hp
        injection hp with h4 h5
        exact h4.symm

/-! ### Claim C8: HOME is set exactly once, before exec -/

/-- C8: on every path that reaches the `execvp` attempt, the very first
event is the single `setenv("HOME", ·, 1)` call — occurring exactly once in
the whole trace — and its value is the resolved passwd record's home
directory when a record was found, `"/"` otherwise. -/
theorem claim_C8 :
    ∀ (sys : Sys) (argv0 us cmd : String) (rest : List String),
      reachesExec (mainRun sys argv0 (us :: cmd :: rest)).1 = true →
      (mainRun sys argv0 (us :: cmd :: rest)).1.head? =
          some (Event.setenvHOME (homeOf (resolvedPwOpt sys us)))
      ∧ (mainRun sys argv0 (us :: cmd :: rest)).1.countP isSetenvHOME = 1
      ∧ ((∃ p, resolvedPwOpt sys us = some p ∧ homeOf (resolvedPwOpt sys us) = p.pw_dir)
         ∨ (resolvedPwOpt sys us = none ∧ homeOf (resolvedPwOpt sys us) = "/")) := by
  intro sys argv0 us cmd rest h
  obtain ⟨uid1, pwn, pre, gid2, hRes, hTr, hPre, _⟩ := mainRun_exec_full sys argv0 us cmd rest h
  have hPw : resolvedPwOpt sys us = pwAfterLookup sys uid1 pwn := by
    simp only [resolvedPwOpt, hRes]
  rw [hTr, hPw]
  refine ⟨rfl, ?_, ?_⟩
  · rcases hPre with rfl | ⟨n, l, rfl⟩ | ⟨nm, gq, n, l, rfl⟩ <;>
      simp [List.countP_cons, List.countP_append, isSetenvHOME]
  · rcases hp : pwAfterLookup sys uid1 pwn with _ | p
    · exact Or.inr ⟨rfl, rfl⟩
    · exact Or.inl ⟨p, rfl, rfl⟩

/-- C8 witness: the HOME theorem applied to a concrete run reaching exec. -/
theorem claim_C8_witness :
    (mainRun sysA "su-exec" ["alice", "/bin/sh"]).1.head? =
        some (Event.setenvHOME (homeOf (resolvedPwOpt sysA "alice")))
    ∧ (mainRun sysA "su-exec" ["alice", "/bin/sh"]).1.countP isSetenvHOME = 1
    ∧ ((∃ p, resolvedPwOpt sysA "alice" = some p ∧
          homeOf (resolvedPwOpt sysA "alice") = p.pw_dir)
       ∨ (resolvedPwOpt sysA "alice" = none ∧ homeOf (resolvedPwOpt sysA "alice") = "/")) :=
  claim_C8 sysA "su-exec" "alice" "/bin/sh" [] (by decide)

/-! ### Claim C3: empty user-part defaults (corrected) -/

/-- C3 counterexample: with an empty user-part, caller uid/gid both 1000,
and a passwd record for uid 1000 whose gid is 2000, the run reaches exec and
applies `setgid(2000)` — never `setgid(1000)` — although `getgid()` of the
invoking process is 1000.  The record's gid overrides the caller's gid, so
the gid used for `setgid` is not `getgid()` as the claim states. -/
theorem claim_C3_counterexample :
    sysB.cur_gid = 1000
    ∧ reachesExec (mainRun sysB "su-exec" ["", "/bin/sh"]).1 = true
    ∧ Event.setgid 2000 ∈ (mainRun sysB "su-exec" ["", "/bin/sh"]).1
    ∧ Event.setgid 1000 ∉ (mainRun sysB "su-exec" ["", "/bin/sh"]).1 := by
  decide

/-- C3 (amended): with an empty user-part (and no group part), uid/gid start
as the caller's real uid/gid, but are then overridden by the passwd record
found for that uid when one exists; so the values used for `setgid`/`setuid`
equal `getgid()`/`getuid()` exactly when no passwd record exists for the
caller's uid, and equal the record's `pw_gid`/`pw_uid` otherwise. -/
theorem claim_C3_amended :
    ∀ (sys : Sys) (argv0 cmd : String) (rest : List String),
      reachesExec (mainRun sys argv0 ("" :: cmd :: rest)).1 = true →
      (sys.pwuid sys.cur_uid = none →
          Event.setgid sys.cur_gid ∈ (mainRun sys argv0 ("" :: cmd :: rest)).1
          ∧ Event.setuid sys.cur_uid ∈ (mainRun sys argv0 ("" :: cmd :: rest)).1)
      ∧ (∀ p, sys.pwuid sys.cur_uid = some p →
          Event.setgid p.pw_gid ∈ (mainRun sys argv0 ("" :: cmd :: rest)).1
          ∧ Event.setuid p.pw_uid ∈ (mainRun sys argv0 ("" :: cmd :: rest)).1) := by
  intro sys argv0 cmd rest h
  obtain ⟨uid1, pwn, pre, gid2, hRes, hTr, hPre, hGid⟩ :=
    mainRun_exec_full sys argv0 "" cmd rest h
  have hUP : userPart "" = "" := rfl
  rw [hUP] at hRes
  have hRes0 : resolveUser sys "" = Except.ok (sys.cur_uid, none) := by
    simp [resolveUser]
  rw [hRes0] at hRes
  injection hRes with hp
  injection hp with h1 h2
  subst h1
  subst h2
  have hGP : groupPart "" = none := rfl
  have hgid2 : gid2 = gidOf sys (pwAfterLookup sys sys.cur_uid none) := hGid (Or.inl hGP)
  subst hgid2
  have hPA : pwAfterLookup sys sys.cur_uid none = sys.pwuid sys.cur_uid := rfl
  rw [hPA] at hTr
  constructor
  · intro hnone
    rw [hnone] at hTr
    rw [hTr]
    constructor <;> simp [gidOf, uidOf]
  · intro p hsome
    rw [hsome] at hTr
    rw [hTr]
    constructor <;> simp [gidOf, uidOf]

/-- C3 witness: the amended theorem applied to a concrete run (caller uid
1000 whose passwd record carries gid 2000). -/
theorem claim_C3_amended_witness :
    Event.setgid 2000 ∈ (mainRun sysB "su-exec" ["", "/bin/sh"]).1
    ∧ Event.setuid 1000 ∈ (mainRun sysB "su-exec" ["", "/bin/sh"]).1 :=
  (claim_C3_amended sysB "su-exec" "/bin/sh" [] (by decide)).2
    ⟨"bob", 1000, 2000, "/home/bob"⟩ (by decide)

/-! ### Claim C10: numeric uid without passwd record inherits caller groups -/

/-- C10: when the user-part is numeric, no passwd record exists for that
uid, and no non-empty group-part is supplied, the run performs no
`setgroups` call and no `getgrouplist` query at all — the caller's
supplementary set is inherited — and a run reaching exec is exactly
HOME:=`/`, `setgid(getgid())`, `setuid(numeric uid)`, `execvp`. -/
theorem claim_C10 :
    ∀ (sys : Sys) (argv0 us cmd : String) (rest : List String),
      userPart us ≠ "" →
      strtolConsumedAll (userPart us) = true →
      sys.pwuid (numericId (userPart us)) = none →
      (groupPart us = none ∨ groupPart us = some "") →
      (∀ n l, Event.setgroups n l ∉ (mainRun sys argv0 (us :: cmd :: rest)).1)
      ∧ (∀ nm gq, Event.grouplistQuery nm gq ∉ (mainRun sys argv0 (us :: cmd :: rest)).1)
      ∧ (reachesExec (mainRun sys argv0 (us :: cmd :: rest)).1 = true →
          (mainRun sys argv0 (us :: cmd :: rest)).1 =
            [Event.setenvHOME "/", Event.setgid sys.cur_gid,
             Event.setuid (numericId (userPart us)), Event.execvp cmd rest]) := by
  intro sys argv0 us cmd rest hne hnum hpw hgrp
  have hRes : resolveUser sys (userPart us) =
      Except.ok (numericId (userPart us), none) := by
    unfold resolveUser
    rw [if_neg hne, if_pos hnum]
  have hM : mainRun sys argv0 (us :: cmd :: rest) =
      afterResolve sys none (numericId (userPart us)) (groupPart us) cmd rest := by
    simp only [mainRun, hRes]
    have hPA : pwAfterLookup sys (numericId (userPart us)) none =
        (none : Option Passwd) := by
      simp [pwAfterLookup, hpw]
    rw [hPA]
    simp [uidOf]
  rw [hM]
  have hGrp := groupPhase_none_or_empty sys (gidOf sys none) (groupPart us) hgrp
  rcases afterResolve_cases sys none (numericId (userPart us)) (groupPart us) cmd rest with
    ⟨evG, out, hEq, hG⟩ | ⟨evG, gid2, b, evL, outL, hG, hL, hEq⟩ |
    ⟨evG, gid2, b, evL, evF, out, hG, hL, hF, hEq⟩
  · rw [hGrp] at hG
    injection hG with hev hres
    injection hres
  · rw [hGrp] at hG
    injection hG with hev hres
    injection hres with hp
    injection hp with hg1 hg2
    subst hg2
    have h0 : grouplistPhase sys none true gid2 = ([], none) := rfl
    rw [h0] at hL
    injection hL with h1 h2
    injection h2
  · rw [hGrp] at hG
    injection hG with hev hres
    injection hres with hp
    injection hp with hg1 hg2
    subst hev
    subst hg2
    subst hg1
    have h0 : grouplistPhase sys none true (gidOf sys none) = ([], none) := rfl
    rw [h0] at hL
    injection hL with h1 h2
    subst h1
    rw [hEq]
    refine ⟨?_, ?_, ?_⟩
    · intro n l
      rcases finalPhase_events_shape sys _ _ _ _ _ _ hF with h3 | h3 | h3 <;> subst h3 <;>
        simp [homeOf]
    · intro nm gq
      rcases finalPhase_events_shape sys _ _ _ _ _ _ hF with h3 | h3 | h3 <;> subst h3 <;>
        simp [homeOf]
    · intro hx
      rcases finalPhase_events_shape sys _ _ _ _ _ _ hF with h3 | h3 | h3 <;> subst h3 <;>
        simp_all [reachesExec, homeOf, gidOf, uidOf]

/-- C10 witness: concrete run as numeric uid 4242 against an empty passwd
database. -/
theorem claim_C10_witness :
    (∀ n l, Event.setgroups n l ∉ (mainRun sysC "su-exec" ["4242", "/bin/true"]).1)
    ∧ (∀ nm gq, Event.grouplistQuery nm gq ∉ (mainRun sysC "su-exec" ["4242", "/bin/true"]).1)
    ∧ (reachesExec (mainRun sysC "su-exec" ["4242", "/bin/true"]).1 = true →
        (mainRun sysC "su-exec" ["4242", "/bin/true"]).1 =
          [Event.setenvHOME "/", Event.setgid sysC.cur_gid,
           Event.setuid (numericId (userPart "4242")), Event.execvp "/bin/true" []]) :=
  claim_C10 sysC "su-exec" "4242" "/bin/true" [] (by decide) (by decide) (by decide)
    (by decide)

/-- Inversion of the explicit-group phase: whatever the outcome, every
`setgroups` event carries exactly the resolved token gids (count = commas
plus one), and on success the gid handed on is the first token's gid and the
`pw = NULL` flag is set. -/
theorem groupPhase_content_inv (sys : Sys) (g : String) (gid : Nat)
    (evG : List Event) (res : Except Outcome (Nat × Bool)) (hg : g ≠ "")
    (hG : groupPhase sys (some g) gid = (evG, res)) :
    (∀ n l, Event.setgroups n l ∈ evG →
        mapGetGid sys (strtokTokens g) = Except.ok l ∧ n = str_occurrences g.data ',' + 1)
    ∧ (∀ gid2 b, res = Except.ok (gid2, b) →
        ∃ l, mapGetGid sys (strtokTokens g) = Except.ok l ∧ l.head? = some gid2 ∧ b = false) := by
  rcases groupPhase_cases sys (some g) gid with ⟨h1, hcase⟩ |
    ⟨g2, hge, hgne, ⟨e, h1⟩ | h1 | ⟨g0, gs, hmap, ⟨hok, h1⟩ | ⟨msg, hok, h1⟩⟩⟩
  · rcases hcase with hc | hc
    · exact absurd hc (by simp)
    · injection hc with hc2
      exact absurd hc2 hg
  · injection hge with hge2
    subst hge2
    rw [h1] at hG
    injection hG with hev hres
    subst hev
    subst hres
    constructor
    · intro n l hmem
      simp at hmem
    · intro gid2 b hb
      simp at hb
  · injection hge with hge2
    subst hge2
    rw [h1] at hG
    injection hG with hev hres
    subst hev
    subst hres
    constructor
    · intro n l hmem
      simp at hmem
    · intro gid2 b hb
      simp at hb
  · injection hge with hge2
    subst hge2
    rw [h1] at hG
    injection hG with hev hres
    subst hev
    subst hres
    constructor
    · intro n l hmem
      simp at hmem
      obtain ⟨hn, hl⟩ := hmem
      subst hn
      subst hl
      exact ⟨hmap, rfl⟩
    · intro gid2 b hb
      injection hb with hp
      injection hp with hh1 hh2
      subst hh1
      subst hh2
      exact ⟨g0 :: gs, hmap, rfl, rfl⟩
  · injection hge with hge2
    subst hge2
    rw [h1] at hG
    injection hG with hev hres
    subst hev
    subst hres
    constructor
    · intro n l hmem
      simp at hmem
      obtain ⟨hn, hl⟩ := hmem
      subst hn
      subst hl
      exact ⟨hmap, rfl⟩
    · intro gid2 b hb
      simp at hb

theorem strtok_eq_commaTokens (g : String) (h : "" ∉ commaTokens g) :
    strtokTokens g = commaTokens g := by
  unfold strtokTokens commaTokens
  have hall : ∀ l ∈ splitOn ',' g.data, (fun l => !l.isEmpty) l = true := by
    intro l hl
    have hne : l ≠ [] := by
      intro hle
      subst hle
      exact h (List.mem_map.mpr ⟨[], hl, rfl⟩)
    cases l with
    | nil => exact absurd rfl hne
    | cons c cs => rfl
  rw [List.filter_eq_self.mpr hall]

theorem commaTokens_length (g : String) :
    (commaTokens g).length = str_occurrences g.data ',' + 1 := by
  simp [commaTokens, splitOn_length]

theorem mapGetGid_length (sys : Sys) : ∀ (ts : List String) (l : List Nat),
    mapGetGid sys ts = Except.ok l → l.length = ts.length := by
  intro ts
  induction ts with
  | nil =>
    intro l h
    simp [mapGetGid] at h
    rw [h]
    rfl
  | cons t ts ih =>
    intro l h
    unfold mapGetGid at h
    split at h
    · simp at h
    · split at h
      · simp at h
      · rename_i g0 heq1 gs heq2
        injection h with hl
        rw [← hl]
        simp [ih gs heq2]

/-- Content of every run whose user-spec carries a non-empty group part:
the `getgrouplist` query never runs, every `setgroups` event carries exactly
the gids resolved from the group tokens (with the comma count), and every
`setgid` uses the first token's gid. -/
theorem mainRun_group_content (sys : Sys) (argv0 us cmd : String) (rest : List String)
    (g : String) (hgp : groupPart us = some g) (hgne : g ≠ "") :
    (∀ nm gq, Event.grouplistQuery nm gq ∉ (mainRun sys argv0 (us :: cmd :: rest)).1)
    ∧ (∀ n l, Event.setgroups n l ∈ (mainRun sys argv0 (us :: cmd :: rest)).1 →
        mapGetGid sys (strtokTokens g) = Except.ok l ∧ n = str_occurrences g.data ',' + 1)
    ∧ (∀ gv, Event.setgid gv ∈ (mainRun sys argv0 (us :: cmd :: rest)).1 →
        ∃ l, mapGetGid sys (strtokTokens g) = Except.ok l ∧ l.head? = some gv) := by
  rcases hR : resolveUser sys (userPart us) with e | ⟨uid1, pwn⟩
  · have hM : mainRun sys argv0 (us :: cmd :: rest) = ([], Outcome.fatal e) := by
      simp only [mainRun, hR]
    rw [hM]
    refine ⟨?_, ?_, ?_⟩
    · intro nm gq
      simp
    · intro n l hmem
      simp at hmem
    · intro gv hmem
      simp at hmem
  · have hM : mainRun sys argv0 (us :: cmd :: rest) =
        afterResolve sys (pwAfterLookup sys uid1 pwn)
          (uidOf (pwAfterLookup sys uid1 pwn) uid1) (groupPart us) cmd rest := by
      simp only [mainRun, hR]
    rw [hgp] at hM
    rw [hM]
    rcases afterResolve_cases sys (pwAfterLookup sys uid1 pwn)
        (uidOf (pwAfterLookup sys uid1 pwn) uid1) (some g) cmd rest with
      ⟨evG, out, hEq, hG⟩ | ⟨evG, gid2, b, evL, outL, hG, hL, hEq⟩ |
      ⟨evG, gid2, b, evL, evF, out, hG, hL, hF, hEq⟩
    · obtain ⟨hC1, hC2⟩ := groupPhase_content_inv sys g _ evG _ hgne hG
      rw [hEq]
      refine ⟨?_, ?_, ?_⟩
      · intro nm gq hmem
        rcases groupPhase_events_shape sys _ _ _ _ hG with hsh | ⟨n0, l0, hsh⟩ <;>
          subst hsh <;> simp at hmem
      · intro n l hmem
        simp only [List.mem_cons] at hmem
        rcases hmem with hmem | hmem
        · simp at hmem
        · exact hC1 n l hmem
      · intro gv hmem
        rcases groupPhase_events_shape sys _ _ _ _ hG with hsh | ⟨n0, l0, hsh⟩ <;>
          subst hsh <;> simp at hmem
    · obtain ⟨hC1, hC2⟩ := groupPhase_content_inv sys g _ evG _ hgne hG
      obtain ⟨l0, hmap0, hhead0, hbf⟩ := hC2 gid2 b rfl
      subst hbf
      have h0 := grouplistPhase_false sys (pwAfterLookup sys uid1 pwn) gid2
      rw [h0] at hL
      injection hL with h1 h2
      injection h2
    · obtain ⟨hC1, hC2⟩ := groupPhase_content_inv sys g _ evG _ hgne hG
      obtain ⟨l0, hmap0, hhead0, hbf⟩ := hC2 gid2 b rfl
      subst hbf
      have h0 := grouplistPhase_false sys (pwAfterLookup sys uid1 pwn) gid2
      rw [h0] at hL
      injection hL with h1 h2
      subst h1
      rw [hEq]
      refine ⟨?_, ?_, ?_⟩
      · intro nm gq hmem
        simp only [List.mem_cons, List.nil_append, List.mem_append] at hmem
        rcases hmem with hmem | hmem | hmem
        · simp at hmem
        · rcases groupPhase_events_shape sys _ _ _ _ hG with hsh | ⟨n0, ll0, hsh⟩ <;>
            subst hsh <;> simp at hmem
        · rcases finalPhase_events_shape sys _ _ _ _ _ _ hF with h3 | h3 | h3 <;>
            subst h3 <;> simp at hmem
      · intro n l hmem
        simp only [List.mem_cons, List.nil_append, List.mem_append] at hmem
        rcases hmem with hmem | hmem | hmem
        · simp at hmem
        · exact hC1 n l hmem
        · rcases finalPhase_events_shape sys _ _ _ _ _ _ hF with h3 | h3 | h3 <;>
            subst h3 <;> simp at hmem
      · intro gv hmem
        simp only [List.mem_cons, List.nil_append, List.mem_append] at hmem
        rcases hmem with hmem | hmem | hmem
        · simp at hmem
        · rcases groupPhase_events_shape sys _ _ _ _ hG with hsh | ⟨n0, ll0, hsh⟩ <;>
            subst hsh <;> simp at hmem
        · rcases finalPhase_events_shape sys _ _ _ _ _ _ hF with h3 | h3 | h3 <;>
            subst h3 <;> simp at hmem <;> subst hmem <;> exact ⟨l0, hmap0, hhead0⟩

/-! ### Claim C2: a non-empty explicit group list takes precedence -/

/-- C2: whenever the group-part of the user-spec is non-empty, the
passwd-derived supplementary-group computation (`getgrouplist`) never runs,
every `setgroups` call carries exactly the gids resolved from the explicit
group tokens, and every `setgid` uses the gid of the first group token —
never a gid from the user's passwd record. -/
theorem claim_C2 :
    ∀ (sys : Sys) (argv0 us cmd : String) (rest : List String) (g : String),
      groupPart us = some g → g ≠ "" →
      (∀ nm gq, Event.grouplistQuery nm gq ∉ (mainRun sys argv0 (us :: cmd :: rest)).1)
      ∧ (∀ n l, Event.setgroups n l ∈ (mainRun sys argv0 (us :: cmd :: rest)).1 →
          mapGetGid sys (strtokTokens g) = Except.ok l)
      ∧ (∀ gv, Event.setgid gv ∈ (mainRun sys argv0 (us :: cmd :: rest)).1 →
          ∃ l, mapGetGid sys (strtokTokens g) = Except.ok l ∧ l.head? = some gv) := by
  intro sys argv0 us cmd rest g hgp hgne
  obtain ⟨h1, h2, h3⟩ := mainRun_group_content sys argv0 us cmd rest g hgp hgne
  exact ⟨h1, fun n l hmem => (h2 n l hmem).1, h3⟩

/-- C2 witness: concrete run with explicit group list `100,staff`. -/
theorem claim_C2_witness :
    (∀ nm gq, Event.grouplistQuery nm gq ∉
        (mainRun sysA "su-exec" ["alice:100,staff", "/bin/sh"]).1)
    ∧ (∀ n l, Event.setgroups n l ∈ (mainRun sysA "su-exec" ["alice:100,staff", "/bin/sh"]).1 →
        mapGetGid sysA (strtokTokens "100,staff") = Except.ok l)
    ∧ (∀ gv, Event.setgid gv ∈ (mainRun sysA "su-exec" ["alice:100,staff", "/bin/sh"]).1 →
        ∃ l, mapGetGid sysA (strtokTokens "100,staff") = Except.ok l ∧ l.head? = some gv) :=
  claim_C2 sysA "su-exec" "alice:100,staff" "/bin/sh" [] "100,staff" (by decide) (by decide)

/-! ### Claim C6: comma-separated group lists, order and first-token gid -/

/-- C6: for an explicit comma-separated group part with no empty field, the
list handed to `setgroups` is exactly the resolved gids of all tokens in
their original order (and the recorded count equals its length), while the
gid used for `setgid` is the resolved gid of the first token. -/
theorem claim_C6 :
    ∀ (sys : Sys) (argv0 us cmd : String) (rest : List String) (g : String),
      groupPart us = some g → g ≠ "" → "" ∉ commaTokens g →
      (∀ n l, Event.setgroups n l ∈ (mainRun sys argv0 (us :: cmd :: rest)).1 →
          mapGetGid sys (commaTokens g) = Except.ok l ∧ n = l.length)
      ∧ (∀ gv, Event.setgid gv ∈ (mainRun sys argv0 (us :: cmd :: rest)).1 →
          ∃ l, mapGetGid sys (commaTokens g) = Except.ok l ∧ l.head? = some gv) := by
  intro sys argv0 us cmd rest g hgp hgne hnil
  obtain ⟨h1, h2, h3⟩ := mainRun_group_content sys argv0 us cmd rest g hgp hgne
  have htk := strtok_eq_commaTokens g hnil
  constructor
  · intro n l hmem
    obtain ⟨hmap, hcnt⟩ := h2 n l hmem
    rw [htk] at hmap
    refine ⟨hmap, ?_⟩
    have hlen := mapGetGid_length sys (commaTokens g) l hmap
    rw [hcnt, hlen, commaTokens_length]
  · intro gv hmem
    obtain ⟨l, hmap, hhead⟩ := h3 gv hmem
    rw [htk] at hmap
    exact ⟨l, hmap, hhead⟩

/-- C6 witness: `100,200,300` yields setgroups list `[100,200,300]` (count
3) and setgid 100 in the concrete run. -/
theorem claim_C6_witness :
    ((∀ n l, Event.setgroups n l ∈ (mainRun sysA "su-exec" ["alice:100,200,300", "/bin/sh"]).1 →
        mapGetGid sysA (commaTokens "100,200,300") = Except.ok l ∧ n = l.length)
     ∧ (∀ gv, Event.setgid gv ∈ (mainRun sysA "su-exec" ["alice:100,200,300", "/bin/sh"]).1 →
        ∃ l, mapGetGid sysA (commaTokens "100,200,300") = Except.ok l ∧ l.head? = some gv))
    ∧ Event.setgroups 3 [100, 200, 300] ∈
        (mainRun sysA "su-exec" ["alice:100,200,300", "/bin/sh"]).1
    ∧ Event.setgid 100 ∈ (mainRun sysA "su-exec" ["alice:100,200,300", "/bin/sh"]).1 :=
  ⟨claim_C6 sysA "su-exec" "alice:100,200,300" "/bin/sh" [] "100,200,300"
      (by decide) (by decide) (by decide),
   by decide, by decide⟩

/-! ### strtol characterization (for claim C4) -/

theorem digitsRun_all : ∀ (cs : List Char) (acc : Nat), cs.all isDigitC = true →
    digitsRun cs acc = (cs.foldl (fun a c => 10 * a + (c.toNat - 48)) acc, []) := by
  intro cs
  induction cs with
  | nil =>
    intro acc h
    rfl
  | cons c cs ih =>
    intro acc h
    simp only [List.all_cons, Bool.and_eq_true] at h
    obtain ⟨h1, h2⟩ := h
    have hrec := ih (10 * acc + (c.toNat - 48)) h2
    simp [digitsRun, h1, hrec]

theorem digitsRun_trailing : ∀ (cs : List Char) (acc : Nat) (c : Char),
    lastChar cs = some c → isDigitC c = false → (digitsRun cs acc).2 ≠ [] := by
  intro cs
  induction cs with
  | nil =>
    intro acc c h
    simp [lastChar] at h
  | cons d ds ih =>
    intro acc c h hnd
    cases ds with
    | nil =>
      simp [lastChar] at h
      subst h
      simp [digitsRun, hnd]
    | cons e es =>
      have hl : lastChar (d :: e :: es) = lastChar (e :: es) := rfl
      rw [hl] at h
      by_cases hd : isDigitC d
      · simp only [digitsRun, hd, if_true, ite_true]
        exact ih _ c h hnd
      · simp [digitsRun, hd]

theorem dropWhile_lastChar (p : Char → Bool) : ∀ (cs : List Char) (d : Char) (r : List Char),
    cs.dropWhile p = d :: r → lastChar (d :: r) = lastChar cs := by
  intro cs
  induction cs with
  | nil =>
    intro d r h
    simp [List.dropWhile] at h
  | cons c cs ih =>
    intro d r h
    rw [List.dropWhile_cons] at h
    by_cases hc : p c
    · rw [if_pos hc] at h
      have hcs : cs ≠ [] := by
        intro he
        subst he
        simp [List.dropWhile] at h
      rw [ih d r h]
      cases cs with
      | nil => exact absurd rfl hcs
      | cons e es => rfl
    · rw [if_neg hc] at h
      rw [← h]

theorem isDigitC_not_space (c : Char) (h : isDigitC c = true) : isCSpace c = false := by
  unfold isDigitC at h
  unfold isCSpace
  simp only [Bool.and_eq_true, decide_eq_true_eq] at h
  simp only [Bool.or_eq_false_iff, Bool.and_eq_false_iff, decide_eq_false_iff_not]
  omega

theorem strtol10Aux_digits (cs : List Char) (hne : cs ≠ []) (h : cs.all isDigitC = true) :
    strtol10Aux cs = (clampLong (decVal cs), []) := by
  cases cs with
  | nil => exact absurd rfl hne
  | cons c r =>
    simp only [List.all_cons, Bool.and_eq_true] at h
    obtain ⟨h1, h2⟩ := h
    have hns : isCSpace c = false := isDigitC_not_space c h1
    have hdig : 48 ≤ c.toNat ∧ c.toNat ≤ 57 := by
      unfold isDigitC at h1
      simp only [Bool.and_eq_true, decide_eq_true_eq] at h1
      exact h1
    have h45 : ¬ c.toNat = 45 := by omega
    have h43 : ¬ c.toNat = 43 := by omega
    have hdw : (c :: r).dropWhile isCSpace = c :: r := by
      simp [List.dropWhile_cons, hns]
    have hall : (c :: r).all isDigitC = true := by
      simp [List.all_cons, h1, h2]
    unfold strtol10Aux
    rw [hdw]
    simp only [h45, h43, if_false, ite_false, h1, if_true, ite_true]
    rw [digitsRun_all (c :: r) 0 hall]
    simp [decVal]

theorem strtol10Aux_trailing (cs : List Char) (c : Char) (h : lastChar cs = some c)
    (hnd : isDigitC c = false) : (strtol10Aux cs).2 ≠ [] := by
  have hne : cs ≠ [] := by
    intro he
    subst he
    simp [lastChar] at h
  unfold strtol10Aux
  rcases hdw : cs.dropWhile isCSpace with _ | ⟨d, r⟩
  · simpa using hne
  · have hlast : lastChar (d :: r) = some c := by
      rw [dropWhile_lastChar isCSpace cs d r hdw]
      exact h
    by_cases h45 : d.toNat = 45
    · simp only [h45, if_true, ite_true]
      cases r with
      | nil => simpa [headDigit] using hne
      | cons e es =>
        by_cases hh : headDigit (e :: es)
        · simp only [hh, if_true, ite_true]
          exact digitsRun_trailing (e :: es) 0 c hlast hnd
        · simpa [hh] using hne
    · by_cases h43 : d.toNat = 43
      · simp only [h45, h43, if_false, ite_false, if_true, ite_true]
        cases r with
        | nil => simpa [headDigit] using hne
        | cons e es =>
          by_cases hh : headDigit (e :: es)
          · simp only [hh, if_true, ite_true]
            exact digitsRun_trailing (e :: es) 0 c hlast hnd
          · simpa [hh] using hne
      · simp only [h45, h43, if_false, ite_false]
        by_cases hd : isDigitC d
        · simp only [hd, if_true, ite_true]
          exact digitsRun_trailing (d :: r) 0 c hlast hnd
        · simpa [hd] using hne

/-! ### Claim C4: numeric-token rule (corrected) -/

/-- C4 counterexample.  The claim's "numeric iff the entire string is
consumed by integer parsing as a non-negative integer" fails on `"-1"`: the
code's `strtol` consumes it entirely, so the token is treated as numeric
(resolving to `(uid_t)(-1) = 4294967295`, with no group database lookup —
here `get_gid` succeeds under an empty group database), although its parsed
value is negative.  The claim's "the parsed id equals the decimal integer
value" also fails for the digits-only string `"4294967296"` (= 2^32), whose
resolved id wraps to 0. -/
theorem claim_C4_counterexample :
    (strtolConsumedAll "-1" = true ∧ strtolVal "-1" < 0
      ∧ numericId "-1" = 4294967295
      ∧ get_gid sysC "-1" = Except.ok 4294967295)
    ∧ ("4294967296".data.all isDigitC = true
      ∧ decVal "4294967296".data = 4294967296
      ∧ numericId "4294967296" = 0
      ∧ get_gid sysC "4294967296" = Except.ok 0) := by
  refine ⟨⟨by decide, by decide, by decide, rfl⟩, by decide, by decide, by decide, rfl⟩

/-- C4 (amended): a token is treated as numeric iff `strtol` consumes the
entire string — which also admits leading whitespace and a sign, with values
reduced modulo 2^32 after clamping to the `long` range.  In particular a
non-empty digits-only token whose value is below 2^32 is numeric and
resolves to exactly its decimal value, and a token whose last character is
not a digit is never partially parsed: it is resolved by group-name
lookup. -/
theorem claim_C4_amended :
    ∀ (sys : Sys) (s : String), s.data ≠ [] →
      (s.data.all isDigitC = true → decVal s.data < 2 ^ 32 →
        strtolConsumedAll s = true ∧ get_gid sys s = Except.ok (decVal s.data))
      ∧ (∀ c, lastChar s.data = some c → isDigitC c = false →
        strtolConsumedAll s = false ∧ get_gid sys s = gidByName sys s) := by
  intro sys s hne
  constructor
  · intro hall hlt
    have h1 : strtol10Aux s.data = (clampLong (decVal s.data), []) :=
      strtol10Aux_digits s.data hne hall
    have hca : strtolConsumedAll s = true := by
      simp [strtolConsumedAll, h1]
    refine ⟨hca, ?_⟩
    have e32 : (2 : Nat) ^ 32 = 4294967296 := by norm_num
    rw [e32] at hlt
    have hint : (decVal s.data : Int) < 4294967296 := by exact_mod_cast hlt
    have hclamp : clampLong ((decVal s.data : Int)) = (decVal s.data : Int) := by
      unfold clampLong
      have hnn : (0 : Int) ≤ (decVal s.data : Int) := Int.natCast_nonneg _
      have e63 : (2 : Int) ^ 63 = 9223372036854775808 := by norm_num
      rw [e63]
      omega
    have hnum : numericId s = decVal s.data := by
      unfold numericId castId strtolVal
      rw [h1]
      simp only [hclamp]
      have hnn : (0 : Int) ≤ (decVal s.data : Int) := Int.natCast_nonneg _
      have heq : (decVal s.data : Int) % 2 ^ 32 = (decVal s.data : Int) := by
        apply Int.emod_eq_of_lt hnn
        have : ((2 : Int) ^ 32) = 4294967296 := by norm_num
        rw [this]
        exact hint
      rw [heq]
      simp
    unfold get_gid
    rw [if_pos hca, hnum]
  · intro c hlast hnd
    have h2 : (strtol10Aux s.data).2 ≠ [] := strtol10Aux_trailing s.data c hlast hnd
    have hca : strtolConsumedAll s = false := by
      unfold strtolConsumedAll
      cases hdd : (strtol10Aux s.data).2 with
      | nil => exact absurd hdd h2
      | cons x xs => rfl
    refine ⟨hca, ?_⟩
    simp [get_gid, gidByName, hca]

/-- C4 witness: the amended theorem evaluated at `"123"` (numeric, value
123) and `"12a"` (trailing non-digit, group-name lookup). -/
theorem claim_C4_amended_witness :
    ("123".data ≠ [] ∧ strtolConsumedAll "123" = true ∧
      get_gid sysC "123" = Except.ok (decVal "123".data))
    ∧ (lastChar "12a".data = some 'a' ∧ strtolConsumedAll "12a" = false ∧
      get_gid sysC "12a" = gidByName sysC "12a") := by
  refine ⟨⟨by decide, ?_, ?_⟩, by decide, ?_, ?_⟩
  · exact ((claim_C4_amended sysC "123" (by decide)).1 (by decide) (by decide)).1
  · exact ((claim_C4_amended sysC "123" (by decide)).1 (by decide) (by decide)).2
  · exact ((claim_C4_amended sysC "12a" (by decide)).2 'a' (by decide) (by decide)).1
  · exact ((claim_C4_amended sysC "12a" (by decide)).2 'a' (by decide) (by decide)).2

/-- C9 witness: concrete zero-argument and one-argument invocations. -/
theorem claim_C9_witness :
    mainRun sysA "su-exec" [] = ([], Outcome.usage 0 (usageText "su-exec"))
    ∧ mainRun sysA "su-exec" ["x"] = ([], Outcome.usage 0 (usageText "su-exec"))
    ∧ usageText "su-exec" ≠ "" :=
  claim_C9 sysA "su-exec" "x"
